import Mathlib

/-!
Verification of the scheduling core of the university schedule service
(`app/services/schedule.py`) against its specification.

Modelling conventions.

Dates are natural numbers counting days from a fixed epoch that falls on a
Monday, so `d % 7 = 0` means Monday, …, `d % 7 = 6` means Sunday.  This
matches Python `date.weekday()` (Monday = 0) and
`date.isoweekday() = weekday + 1`.  ISO-8601 date strings compare exactly
as their day numbers, so DTO string fields holding dates are modelled by
the day number.  Identifiers (course, lecturer, room, time-slot ids) are
natural numbers.  Fallible Python code is modelled in `Except`; an
uncaught Python exception that the service's outer handlers translate
into an HTTP response is modelled by the resulting status code.
-/

namespace ScheduleSvc

/-- Ceiling division on naturals, the model of `math.ceil(a / b)` for
positive integral arguments as used throughout the service. -/
def ceilDiv (a b : Nat) : Nat := (a + b - 1) / b

/-- Name of a weekday given its Python `weekday()` number (Monday = 0),
the composition of `isoweekday` with the service's `day_name_map_from_iso`
(schedule.py lines 26-31). -/
def dayNameOfWeekday : Nat → String
  | 0 => "MONDAY"
  | 1 => "TUESDAY"
  | 2 => "WEDNESDAY"
  | 3 => "THURSDAY"
  | 4 => "FRIDAY"
  | 5 => "SATURDAY"
  | _ => "SUNDAY"

/-- Day name of a concrete date (day number since the epoch Monday). -/
def dayName (d : Nat) : String := dayNameOfWeekday (d % 7)

/-- Index assigned to value `x` by a Python dict comprehension mapping
each list element to its enumeration index: the LAST position of `x` in
the list, because later duplicate keys overwrite earlier ones; `none`
when absent. -/
def lastIdxFrom [DecidableEq α] (x : α) : List α → Nat → Option Nat
  | [], _ => none
  | a :: as, i =>
    match lastIdxFrom x as (i + 1) with
    | some j => some j
    | none => if a = x then some i else none

/-- The dict `day_name_to_idx` built by the service from `daysOfWeek`
(schedule.py line 301). -/
def dayNameToIdx (days : List String) (n : String) : Option Nat :=
  lastIdxFrom n days 0

/-- Model of `get_semester_week_and_day_indices` (schedule.py lines
13-36): the 0-based semester week of `targetDate` relative to
`semesterStartDate`, and the index of its day name in the allowed-days
map; `(none, none)` before the semester start, week paired with `none`
when the weekday is not an allowed day. -/
def get_semester_week_and_day_indices (targetDate semesterStartDate : Nat)
    (days : List String) : Option Nat × Option Nat :=
  if targetDate < semesterStartDate then (none, none)
  else
    match dayNameToIdx days (dayName targetDate) with
    | some dayIndex => (some ((targetDate - semesterStartDate) / 7), some dayIndex)
    | none => (some ((targetDate - semesterStartDate) / 7), none)

/-! ## Course preprocessor: sessions per week (`_get_sessions_per_week`) -/

/-- Errors raised by `_get_sessions_per_week` (both are `ValueError`s in
the source, distinguished here by their message). -/
inductive SpwError where
  | notEnoughWeeks
  | courseDoesNotFit
  deriving DecidableEq

/-- The `while current_sessions_per_week <= max_sessions_per_week_allowed`
loop of `_get_sessions_per_week` (schedule.py lines 238-262), entered at
`k`; `T` is `total_semester_sessions`, `A` is
`total_semester_weeks_available`, `M` is `max_sessions_per_week_allowed`.
Returns the chosen `(sessionsPerWeek, totalCourseWeeks)` pair or raises
the `CourseDoesNotFit` `ValueError`. -/
def spwLoop (T A M k : Nat) : Except SpwError (Nat × Nat) :=
  if h : k ≤ M then
    if ceilDiv T k ≤ A then .ok (k, ceilDiv T k)
    else if k = M then .error .courseDoesNotFit
    else spwLoop T A M (k + 1)
  else .error .courseDoesNotFit
termination_by M + 1 - k
decreasing_by omega

/-- Model of `ScheduleService._get_sessions_per_week` (schedule.py lines
222-262). -/
def get_sessions_per_week (T A M : Nat) : Except SpwError (Nat × Nat) :=
  if T = 0 then .ok (0, 0)
  else if A = 0 then .error .notEnoughWeeks
  else spwLoop T A M 1

/-- The caller in `calculate_with_cp` (schedule.py lines 315-325) turns a
`ValueError` from `_get_sessions_per_week` into an `HTTPException` with
status code 400. -/
def preprocessCourseSpw (T A M : Nat) : Except (Nat × SpwError) (Nat × Nat) :=
  match get_sessions_per_week T A M with
  | .ok r => .ok r
  | .error e => .error (400, e)

lemma ceilDiv_le_iff {T A k : Nat} (hk : 0 < k) : ceilDiv T k ≤ A ↔ T ≤ k * A := by
  unfold ceilDiv
  rw [Nat.div_le_iff_le_mul_add_pred hk]
  omega

lemma ceilDiv_anti {T A j k : Nat} (hk : 0 < k) (hkj : k ≤ j) (h : ceilDiv T k ≤ A) :
    ceilDiv T j ≤ A := by
  have hj : 0 < j := lt_of_lt_of_le hk hkj
  rw [ceilDiv_le_iff hk] at h
  rw [ceilDiv_le_iff hj]
  exact le_trans h (Nat.mul_le_mul_right A hkj)

lemma spwLoop_ok_props {T A M : Nat} :
    ∀ {k k0 w : Nat}, spwLoop T A M k = .ok (k0, w) →
      k ≤ k0 ∧ k0 ≤ M ∧ ceilDiv T k0 ≤ A ∧ w = ceilDiv T k0 ∧
        ∀ j, k ≤ j → j < k0 → A < ceilDiv T j := by
  intro k
  induction k using spwLoop.induct (T := T) (A := A) (M := M) with
  | case1 x hxM hfit =>
    intro k0 w h
    rw [spwLoop, dif_pos hxM, if_pos hfit] at h
    injection h with h
    injection h with h1 h2
    subst h1; subst h2
    exact ⟨le_refl _, hxM, hfit, rfl,
      fun j hj hj2 => absurd (lt_of_le_of_lt hj hj2) (lt_irrefl _)⟩
  | case2 hMM hfit =>
    intro k0 w h
    rw [spwLoop, dif_pos hMM, if_neg hfit, if_pos rfl] at h
    exact absurd h (by simp)
  | case3 x hxM hfit hne ih =>
    intro k0 w h
    rw [spwLoop, dif_pos hxM, if_neg hfit, if_neg hne] at h
    obtain ⟨h1, h2, h3, h4, h5⟩ := ih h
    refine ⟨by omega, h2, h3, h4, fun j hj hj2 => ?_⟩
    rcases Nat.eq_or_lt_of_le hj with rfl | hlt
    · exact Nat.lt_of_not_le hfit
    · exact h5 j hlt hj2
  | case4 x hxM =>
    intro k0 w h
    rw [spwLoop, dif_neg hxM] at h
    exact absurd h (by simp)

lemma spwLoop_reaches {T A M k0 : Nat} (hk0M : k0 ≤ M) (hfit : ceilDiv T k0 ≤ A) :
    ∀ k, k ≤ k0 → (∀ j, k ≤ j → j < k0 → A < ceilDiv T j) →
      spwLoop T A M k = .ok (k0, ceilDiv T k0) := by
  intro k
  induction k using spwLoop.induct (T := T) (A := A) (M := M) with
  | case1 x hxM hfitx =>
    intro hk hmin
    have hx : x = k0 := by
      by_contra hne
      exact absurd hfitx (Nat.not_le.mpr (hmin x (le_refl _) (by omega)))
    subst hx
    rw [spwLoop, dif_pos hxM, if_pos hfitx]
  | case2 hMM hfitM =>
    intro hk hmin
    have : k0 = M := le_antisymm hk0M hk
    subst this
    exact absurd hfit hfitM
  | case3 x hxM hfitx hne ih =>
    intro hk hmin
    have hxk0 : x < k0 := by
      rcases Nat.eq_or_lt_of_le hk with rfl | h
      · exact absurd hfit hfitx
      · exact h
    rw [spwLoop, dif_pos hxM, if_neg hfitx, if_neg hne]
    exact ih (by omega) (fun j hj hj2 => hmin j (by omega) hj2)
  | case4 x hxM =>
    intro hk hmin
    omega

lemma spwLoop_error_of {T A M : Nat} (hbig : A < ceilDiv T M) :
    ∀ k, 0 < k → k ≤ M → spwLoop T A M k = .error .courseDoesNotFit := by
  intro k
  induction k using spwLoop.induct (T := T) (A := A) (M := M) with
  | case1 x hxM hfitx =>
    intro hx hxM2
    exact absurd (ceilDiv_anti hx hxM hfitx) (Nat.not_le.mpr hbig)
  | case2 hMM hfitM =>
    intro hx hxM2
    rw [spwLoop, dif_pos hMM, if_neg hfitM, if_pos rfl]
  | case3 x hxM hfitx hne ih =>
    intro hx hxM2
    rw [spwLoop, dif_pos hxM, if_neg hfitx, if_neg hne]
    exact ih (by omega) (by omega)
  | case4 x hxM =>
    intro hx hxM2
    omega

/-- C6: for a course with `T > 0` total sessions, `A > 0` available
semester weeks and limit `M > 0`, the preprocessor selects the smallest
`k` in `[1, M]` with `ceil (T / k) ≤ A` and returns total course weeks
`ceil (T / k)`; when even `ceil (T / M)` exceeds `A` it raises
`CourseDoesNotFit`, which `calculate_with_cp` surfaces as an HTTP 400
validation failure. -/
theorem C6_sessions_per_week_minimal (T A M : Nat)
    (hT : 0 < T) (hA : 0 < A) (hM : 0 < M) :
    (∀ k w, get_sessions_per_week T A M = .ok (k, w) ↔
       (0 < k ∧ k ≤ M ∧ ceilDiv T k ≤ A ∧
        (∀ j, 0 < j → j < k → A < ceilDiv T j) ∧ w = ceilDiv T k))
    ∧ (get_sessions_per_week T A M = .error .courseDoesNotFit ↔ A < ceilDiv T M)
    ∧ (A < ceilDiv T M →
        preprocessCourseSpw T A M = .error (400, .courseDoesNotFit)) := by
  have hget : get_sessions_per_week T A M = spwLoop T A M 1 := by
    unfold get_sessions_per_week
    rw [if_neg (by omega), if_neg (by omega)]
  have herr : get_sessions_per_week T A M = .error .courseDoesNotFit ↔
      A < ceilDiv T M := by
    constructor
    · intro h
      by_contra hnot
      have hfitM : ceilDiv T M ≤ A := Nat.not_lt.mp hnot
      have hex : ∃ j, ceilDiv T (j + 1) ≤ A := ⟨M - 1, by
        have : M - 1 + 1 = M := by omega
        rw [this]; exact hfitM⟩
      set k0 := Nat.find hex with hk0
      have hfit0 : ceilDiv T (k0 + 1) ≤ A := Nat.find_spec hex
      have hk0M : k0 + 1 ≤ M := by
        by_contra hgt
        have hMk0 : M ≤ k0 := by omega
        have := Nat.find_min hex (m := M - 1) (by omega)
        have hM1 : M - 1 + 1 = M := by omega
        rw [hM1] at this
        exact this hfitM
      have := spwLoop_reaches hk0M hfit0 1 (by omega) (fun j hj hj2 => by
        have := Nat.find_min hex (m := j - 1) (by omega)
        have hj1 : j - 1 + 1 = j := by omega
        rw [hj1] at this
        exact Nat.not_le.mp this)
      rw [hget, this] at h
      exact absurd h (by simp)
    · intro h
      rw [hget]
      exact spwLoop_error_of h 1 (by omega) hM
  refine ⟨?_, herr, ?_⟩
  · intro k w
    constructor
    · intro h
      rw [hget] at h
      obtain ⟨h1, h2, h3, h4, h5⟩ := spwLoop_ok_props h
      exact ⟨h1, h2, h3, fun j hj hj2 => h5 j hj hj2, h4⟩
    · rintro ⟨h1, h2, h3, h4, rfl⟩
      rw [hget]
      exact spwLoop_reaches h2 h3 1 h1 (fun j hj hj2 => h4 j hj hj2)
  · intro h
    unfold preprocessCourseSpw
    rw [herr.mpr h]

/-- C6 witness: a course needing 100 sessions in 5 weeks at a cap of 3
sessions per week does not fit and raises `CourseDoesNotFit`. -/
theorem C6_sessions_per_week_minimal_witness :
    get_sessions_per_week 100 5 3 = .error .courseDoesNotFit :=
  (C6_sessions_per_week_minimal 100 5 3 (by decide) (by decide)
    (by decide)).2.1.mpr (by decide)

lemma lastIdxFrom_sound [DecidableEq α] {x : α} :
    ∀ {l : List α} {i j : Nat}, lastIdxFrom x l i = some j →
      i ≤ j ∧ l[j - i]? = some x := by
  intro l
  induction l with
  | nil => intro i j h; simp [lastIdxFrom] at h
  | cons a as ih =>
    intro i j h
    rw [lastIdxFrom] at h
    cases hrec : lastIdxFrom x as (i + 1) with
    | some j2 =>
      rw [hrec] at h
      have hj : j2 = j := by injection h
      obtain ⟨h1, h2⟩ := ih hrec
      rw [← hj]
      refine ⟨by omega, ?_⟩
      have hd : j2 - i = (j2 - (i + 1)) + 1 := by omega
      rw [hd, List.getElem?_cons_succ]
      exact h2
    | none =>
      rw [hrec] at h
      by_cases hax : a = x
      · rw [if_pos hax] at h
        have hij : i = j := by injection h
        rw [← hij]
        simp [hax]
      · rw [if_neg hax] at h
        exact absurd h (by simp)

lemma lastIdxFrom_inj [DecidableEq α] {x y : α} {l : List α} {i j : Nat}
    (hx : lastIdxFrom x l i = some j) (hy : lastIdxFrom y l i = some j) : x = y := by
  obtain ⟨h1, h2⟩ := lastIdxFrom_sound hx
  obtain ⟨h3, h4⟩ := lastIdxFrom_sound hy
  rw [h2] at h4
  injection h4

lemma lastIdxFrom_isSome [DecidableEq α] {x : α} :
    ∀ {l : List α} {i : Nat}, (lastIdxFrom x l i).isSome ↔ x ∈ l := by
  intro l
  induction l with
  | nil => intro i; simp [lastIdxFrom]
  | cons a as ih =>
    intro i
    rw [lastIdxFrom]
    cases hrec : lastIdxFrom x as (i + 1) with
    | some j2 =>
      have hmem : x ∈ as := by
        have h2 := ih (i := i + 1)
        rw [hrec] at h2
        exact h2.mp (by simp)
      simp [List.mem_cons_of_mem a hmem]
    | none =>
      have hnmem : x ∉ as := by
        have h2 := ih (i := i + 1)
        rw [hrec] at h2
        intro hc
        exact absurd (h2.mpr hc) (by simp)
      by_cases hax : a = x
      · simp [if_pos hax, hax]
      · rw [if_neg hax]
        simp only [Option.isSome_none, Bool.false_eq_true, false_iff, List.mem_cons]
        intro hc
        rcases hc with hc | hc
        · exact hax hc.symm
        · exact hnmem hc

lemma lastIdxFrom_of_nodup [DecidableEq α] {x : α} :
    ∀ {l : List α} {i k : Nat}, l.Nodup → l[k]? = some x →
      lastIdxFrom x l i = some (i + k) := by
  intro l
  induction l with
  | nil => intro i k _ h; simp at h
  | cons a as ih =>
    intro i k hnd h
    have hnotmem : a ∉ as := (List.nodup_cons.mp hnd).1
    have hnd2 : as.Nodup := (List.nodup_cons.mp hnd).2
    cases k with
    | zero =>
      rw [List.getElem?_cons_zero] at h
      have hax : a = x := by injection h
      have hnone : lastIdxFrom x as (i + 1) = none := by
        cases hc : lastIdxFrom x as (i + 1) with
        | none => rfl
        | some j2 =>
          exfalso
          have h2 := lastIdxFrom_isSome (x := x) (l := as) (i := i + 1)
          rw [hc] at h2
          exact hnotmem (hax ▸ h2.mp (by simp))
      rw [lastIdxFrom, hnone, if_pos hax]
      simp
    | succ k2 =>
      rw [List.getElem?_cons_succ] at h
      have hrec := ih (i := i + 1) hnd2 h
      rw [lastIdxFrom, hrec]
      have hadd : i + 1 + k2 = i + (k2 + 1) := by omega
      rw [hadd]

/-! ## Course preprocessor: group splitting and session emission -/

/-- Input DTO `CourseSchedulingInfoDTO` (schedule.py lines 39-44). -/
structure CourseSchedulingInfoDTO where
  courseId : Nat
  credits : Nat
  totalSemesterSessions : Nat
  registeredStudents : Nat
  potentialLecturerIds : List Nat
  deriving DecidableEq

/-- The per-course group creation of `calculate_with_cp` (schedule.py
lines 338-357): number of groups is `ceil (R / G)` with the two dead-code
adjustments for a zero group count; `divmod(R, m)` spreads the students,
the first `R mod m` groups receiving one extra student; zero-student
groups are skipped.  Returns the `(groupNumber, students)` pairs. -/
def numGroupsForCourse (R G : Nat) : Nat :=
  if ceilDiv R G = 0 ∧ 0 < R then 1 else ceilDiv R G

def makeGroupStudents (R G : Nat) : List (Nat × Nat) :=
  if numGroupsForCourse R G = 0 then []
  else
    (List.range (numGroupsForCourse R G)).filterMap (fun grpIdx =>
      if R / numGroupsForCourse R G +
          (if grpIdx < R % numGroupsForCourse R G then 1 else 0) = 0 then
        none
      else
        some (grpIdx + 1,
          R / numGroupsForCourse R G +
            (if grpIdx < R % numGroupsForCourse R G then 1 else 0)))

/-- The body of the inner `for session_in_week in range(1, k+1)` loop of
session creation (schedule.py lines 365-377), for one course week:
sessions get consecutive overall sequence numbers and stop at `T`. -/
def weekSessions (T k created week : Nat) : List (Nat × Nat × Nat) :=
  (List.range k).filterMap (fun i =>
    if created + i < T then some (week, i + 1, created + i + 1) else none)

/-- The outer `while sessions_created_for_group < T` loop of session
creation (schedule.py lines 362-381), including the safety break once the
course week exceeds `W + 2` with sessions still missing.  The fuel is an
upper bound on the remaining iterations. -/
def sessionsLoop (T k W : Nat) : Nat → Nat → Nat → List (Nat × Nat × Nat)
  | _, _, 0 => []
  | created, week, fuel + 1 =>
    if created < T then
      let chunk := weekSessions T k created week
      let created2 := created + min k (T - created)
      if W + 2 < week + 1 ∧ created2 < T then chunk
      else chunk ++ sessionsLoop T k W created2 (week + 1) fuel
    else []

/-- All `(courseWeek, sessionInWeek, overallSeq)` triples created for one
group of a course with `T` sessions, `k` sessions per week and `W` course
weeks. -/
def sessionsForGroup (T k W : Nat) : List (Nat × Nat × Nat) :=
  sessionsLoop T k W 0 1 (T + W + 3)

/-- Internal scheduling group (`SchedulingGroupInternal`, schedule.py
lines 178-195), keeping the fields the claims need. -/
structure SchedulingGroupInternal where
  idTuple : Nat × Nat × Nat
  actualStudentsInGroup : Nat
  sessionsPerWeek : Nat
  totalCourseWeeks : Nat
  deriving DecidableEq

/-- Internal session (`SessionInternal`, schedule.py lines 197-219). -/
structure SessionInternal where
  groupId : Nat × Nat × Nat
  courseWeekNumber : Nat
  sessionInCourseWeekNumber : Nat
  overallSessionSequenceNumber : Nat
  deriving DecidableEq

/-- Per-course preprocessing of `calculate_with_cp` (schedule.py lines
315-381): compute sessions per week (an unfittable course raises HTTP
400), skip the course when it has no students, no sessions or no
calculated weeks, otherwise create its groups and their sessions. -/
def processCourse (semId A M G : Nat) (c : CourseSchedulingInfoDTO) :
    Except (Nat × SpwError) (List SchedulingGroupInternal × List SessionInternal) :=
  match get_sessions_per_week c.totalSemesterSessions A M with
  | .error e => .error (400, e)
  | .ok (k, w) =>
    if c.registeredStudents = 0 ∨ c.totalSemesterSessions = 0 ∨ w = 0 then
      .ok ([], [])
    else
      let groups := (makeGroupStudents c.registeredStudents G).map (fun p =>
        { idTuple := (c.courseId, semId, p.1), actualStudentsInGroup := p.2,
          sessionsPerWeek := k, totalCourseWeeks := w })
      let sessions := groups.flatMap (fun g =>
        (sessionsForGroup c.totalSemesterSessions k w).map (fun s =>
          { groupId := g.idTuple, courseWeekNumber := s.1,
            sessionInCourseWeekNumber := s.2.1,
            overallSessionSequenceNumber := s.2.2 }))
      .ok (groups, sessions)

/-- The course loop of `calculate_with_cp` accumulating all groups and
sessions in input order (schedule.py lines 311-381). -/
def preprocessAllCourses (semId A M G : Nat) :
    List CourseSchedulingInfoDTO →
    Except (Nat × SpwError) (List SchedulingGroupInternal × List SessionInternal)
  | [] => .ok ([], [])
  | c :: cs => do
    let (g, s) ← processCourse semId A M G c
    let (gs, ss) ← preprocessAllCourses semId A M G cs
    .ok (g ++ gs, s ++ ss)

lemma ceilDiv_pos {R G : Nat} (hR : 0 < R) (hG : 0 < G) : 0 < ceilDiv R G :=
  Nat.div_pos (by omega) hG

lemma ceilDiv_le_self {R G : Nat} (hG : 0 < G) : ceilDiv R G ≤ R := by
  rw [ceilDiv_le_iff hG]
  calc R = 1 * R := (Nat.one_mul R).symm
  _ ≤ G * R := Nat.mul_le_mul_right R hG

lemma spw_eval_15_16_3 : get_sessions_per_week 15 16 3 = .ok (1, 15) := by
  unfold get_sessions_per_week
  rw [if_neg (by decide), if_neg (by decide), spwLoop]
  simp [ceilDiv]

/-- C7: for a course with `R > 0` registered students and target group
size `G > 0`, the preprocessor creates exactly `m = ceil (R / G)` groups
numbered from 1, the first `R mod m` of them with `R / m + 1` students
and the rest with `R / m`; no group in the output has zero students; and
a course with `R = 0` whose sessions-per-week computation succeeds
contributes no groups and no sessions. -/
theorem C7_group_creation (semId A M G R : Nat) (hG : 0 < G) :
    (0 < R →
      makeGroupStudents R G =
        (List.range (ceilDiv R G)).map (fun i =>
          (i + 1, R / ceilDiv R G + if i < R % ceilDiv R G then 1 else 0)) ∧
      ∀ p ∈ makeGroupStudents R G, 0 < p.2)
    ∧ (∀ c : CourseSchedulingInfoDTO, ∀ k w, c.registeredStudents = 0 →
        get_sessions_per_week c.totalSemesterSessions A M = .ok (k, w) →
        processCourse semId A M G c = .ok ([], [])) := by
  constructor
  · intro hR
    have hm0 : 0 < ceilDiv R G := ceilDiv_pos hR hG
    have hmR : ceilDiv R G ≤ R := ceilDiv_le_self hG
    have hbase : 0 < R / ceilDiv R G := Nat.div_pos hmR hm0
    have hm : numGroupsForCourse R G = ceilDiv R G := by
      unfold numGroupsForCourse
      rw [if_neg (by omega)]
    have heq : makeGroupStudents R G =
        (List.range (ceilDiv R G)).map (fun i =>
          (i + 1, R / ceilDiv R G + if i < R % ceilDiv R G then 1 else 0)) := by
      have hfun : (fun grpIdx : Nat =>
          if R / ceilDiv R G + (if grpIdx < R % ceilDiv R G then 1 else 0) = 0 then
            none
          else
            some (grpIdx + 1,
              R / ceilDiv R G + (if grpIdx < R % ceilDiv R G then 1 else 0))) =
          (some ∘ fun i =>
            (i + 1, R / ceilDiv R G + if i < R % ceilDiv R G then 1 else 0)) := by
        funext grpIdx
        have hne : R / ceilDiv R G +
            (if grpIdx < R % ceilDiv R G then 1 else 0) ≠ 0 := by
          split_ifs <;> omega
        rw [if_neg hne]
        rfl
      unfold makeGroupStudents
      rw [hm, if_neg (by omega), hfun, List.filterMap_eq_map]
    refine ⟨heq, fun p hp => ?_⟩
    rw [heq] at hp
    obtain ⟨i, hi, rfl⟩ := List.mem_map.mp hp
    simp only
    omega
  · intro c k w hR0 hok
    unfold processCourse
    rw [hok]
    simp only
    rw [if_pos (Or.inl hR0)]

/-- C7 witness: 23 students at target size 10 split into 3 groups of
sizes 8, 8, 7 (group numbers 1, 2, 3), and a course with no students
contributes nothing. -/
theorem C7_group_creation_witness :
    makeGroupStudents 23 10 = [(1, 8), (2, 8), (3, 7)] ∧
    processCourse 1 16 3 10
      { courseId := 5, credits := 3, totalSemesterSessions := 15,
        registeredStudents := 0, potentialLecturerIds := [7] } = .ok ([], []) := by
  constructor
  · rw [(C7_group_creation 1 16 3 10 23 (by decide)).1 (by decide) |>.1]
    decide
  · exact (C7_group_creation 1 16 3 10 23 (by decide)).2
      { courseId := 5, credits := 3, totalSemesterSessions := 15,
        registeredStudents := 0, potentialLecturerIds := [7] } 1 15 rfl spw_eval_15_16_3

/-! ## Calendar indexer -/

def tripLe (a b : Nat × Nat × Nat) : Bool :=
  decide (a.1 < b.1 ∨ (a.1 = b.1 ∧ (a.2.1 < b.2.1 ∨ (a.2.1 = b.2.1 ∧ a.2.2 ≤ b.2.2))))

def slotBlock (D0 : Nat) (days : List String) (H : List Nat) (S dayOffset : Nat) :
    List (Nat × Nat × Nat) :=
  if D0 + dayOffset ∈ H then []
  else
    match get_semester_week_and_day_indices (D0 + dayOffset) D0 days with
    | (some w, some di) => (List.range S).map (fun sh => (w, di, sh))
    | _ => []

def rawActiveSlots (D0 numDays S : Nat) (days : List String) (H : List Nat) :
    List (Nat × Nat × Nat) :=
  (List.range numDays).flatMap (slotBlock D0 days H S)

def active_slot_details_list (D0 numDays S : Nat) (days : List String)
    (H : List Nat) : List (Nat × Nat × Nat) :=
  (rawActiveSlots D0 numDays S days H).mergeSort tripLe

def slotToDetails (L : List (Nat × Nat × Nat)) (i : Nat) : Option (Nat × Nat × Nat) :=
  L[i]?

def detailsToSlot (L : List (Nat × Nat × Nat)) (t : Nat × Nat × Nat) : Option Nat :=
  lastIdxFrom t L 0

lemma dayName_inj {d1 d2 : Nat} (h : dayName d1 = dayName d2) : d1 % 7 = d2 % 7 := by
  have h1 : d1 % 7 < 7 := Nat.mod_lt _ (by omega)
  have h2 : d2 % 7 < 7 := Nat.mod_lt _ (by omega)
  unfold dayName at h
  revert h
  interval_cases h3 : d1 % 7 <;> interval_cases h4 : d2 % 7 <;> simp [dayNameOfWeekday]

lemma gswdi_eq_iff {d D0 : Nat} {days : List String} {w di : Nat} (hd : D0 ≤ d) :
    get_semester_week_and_day_indices d D0 days = (some w, some di) ↔
      (w = (d - D0) / 7 ∧ dayNameToIdx days (dayName d) = some di) := by
  unfold get_semester_week_and_day_indices
  rw [if_neg (by omega)]
  cases hlook : dayNameToIdx days (dayName d) with
  | some dj =>
    constructor
    · intro h
      injection h with ha hb
      injection ha with ha
      injection hb with hb
      exact ⟨ha.symm, by rw [hb]⟩
    · rintro ⟨rfl, h2⟩
      injection h2 with h2
      rw [h2]
  | none =>
    constructor
    · intro h
      injection h with ha hb
      exact absurd hb (by simp)
    · rintro ⟨rfl, h2⟩
      exact absurd h2 (by simp)

lemma mem_slotBlock {D0 S off : Nat} {days : List String} {H : List Nat}
    {t : Nat × Nat × Nat} :
    t ∈ slotBlock D0 days H S off ↔
      (D0 + off ∉ H ∧
        ∃ di, dayNameToIdx days (dayName (D0 + off)) = some di ∧
          ∃ sh, sh < S ∧ t = (off / 7, di, sh)) := by
  unfold slotBlock
  by_cases hH : D0 + off ∈ H
  · rw [if_pos hH]
    simp [hH]
  · rw [if_neg hH]
    cases hg : get_semester_week_and_day_indices (D0 + off) D0 days with
    | mk ow odi =>
      cases ow with
      | none =>
        have : ¬ ∃ di, dayNameToIdx days (dayName (D0 + off)) = some di := by
          rintro ⟨di, hdi⟩
          have := (@gswdi_eq_iff (D0 + off) D0 days _ di (by omega)).mpr
            ⟨rfl, hdi⟩
          rw [hg] at this
          injection this with h1 h2
          exact absurd h1 (by simp)
        simp only [List.not_mem_nil, false_iff, not_and]
        intro _
        rintro ⟨di, hdi, _⟩
        exact this ⟨di, hdi⟩
      | some w =>
        cases odi with
        | none =>
          have : ¬ ∃ di, dayNameToIdx days (dayName (D0 + off)) = some di := by
            rintro ⟨di, hdi⟩
            have := (@gswdi_eq_iff (D0 + off) D0 days _ di (by omega)).mpr
              ⟨rfl, hdi⟩
            rw [hg] at this
            injection this with h1 h2
            exact absurd h2 (by simp)
          simp only [List.not_mem_nil, false_iff, not_and]
          intro _
          rintro ⟨di, hdi, _⟩
          exact this ⟨di, hdi⟩
        | some di =>
          obtain ⟨hw, hdi⟩ := (@gswdi_eq_iff (D0 + off) D0 days _ _
            (by omega)).mp hg
          have hoffw : (D0 + off - D0) / 7 = off / 7 := by
            congr 1
            omega
          constructor
          · intro hmem
            rw [List.mem_map] at hmem
            obtain ⟨sh, hsh, rfl⟩ := hmem
            rw [List.mem_range] at hsh
            exact ⟨hH, di, hdi, sh, hsh, by rw [hw, hoffw]⟩
          · rintro ⟨_, di2, hdi2, sh, hsh, rfl⟩
            rw [hdi2] at hdi
            have hdieq : di = di2 := by
              injection hdi with h
              exact h.symm
            rw [List.mem_map]
            refine ⟨sh, by rw [List.mem_range]; exact hsh, ?_⟩
            rw [hw, hoffw, hdieq]

lemma mem_rawActiveSlots {D0 numDays S : Nat} {days : List String} {H : List Nat}
    {t : Nat × Nat × Nat} :
    t ∈ rawActiveSlots D0 numDays S days H ↔
      ∃ d, D0 ≤ d ∧ d < D0 + numDays ∧ d ∉ H ∧
        ∃ di, dayNameToIdx days (dayName d) = some di ∧
          ∃ sh, sh < S ∧ t = ((d - D0) / 7, di, sh) := by
  unfold rawActiveSlots
  rw [List.mem_flatMap]
  constructor
  · rintro ⟨off, hoff, hmem⟩
    rw [List.mem_range] at hoff
    obtain ⟨hH, di, hdi, sh, hsh, rfl⟩ := mem_slotBlock.mp hmem
    refine ⟨D0 + off, by omega, by omega, hH, di, hdi, sh, hsh, ?_⟩
    congr 2
    omega
  · rintro ⟨d, hd1, hd2, hH, di, hdi, sh, hsh, rfl⟩
    refine ⟨d - D0, by rw [List.mem_range]; omega, ?_⟩
    apply mem_slotBlock.mpr
    have hd0 : D0 + (d - D0) = d := by omega
    rw [hd0]
    exact ⟨hH, di, hdi, sh, hsh, rfl⟩

lemma slotBlock_key {D0 S off : Nat} {days : List String} {H : List Nat}
    {t : Nat × Nat × Nat} (h : t ∈ slotBlock D0 days H S off) :
    t.1 = off / 7 ∧ dayNameToIdx days (dayName (D0 + off)) = some t.2.1 := by
  obtain ⟨_, di, hdi, sh, _, rfl⟩ := mem_slotBlock.mp h
  exact ⟨rfl, hdi⟩

lemma slotBlock_disjoint {D0 S : Nat} {days : List String} {H : List Nat}
    {off1 off2 : Nat} (hne : off1 ≠ off2) :
    ∀ t, t ∈ slotBlock D0 days H S off1 → t ∈ slotBlock D0 days H S off2 → False := by
  intro t h1 h2
  obtain ⟨hw1, hdi1⟩ := slotBlock_key h1
  obtain ⟨hw2, hdi2⟩ := slotBlock_key h2
  have hnames : dayName (D0 + off1) = dayName (D0 + off2) :=
    lastIdxFrom_inj hdi1 hdi2
  have hmod : (D0 + off1) % 7 = (D0 + off2) % 7 := dayName_inj hnames
  have hdiv : off1 / 7 = off2 / 7 := by omega
  omega

lemma rawActiveSlots_nodup (D0 numDays S : Nat) (days : List String) (H : List Nat) :
    (rawActiveSlots D0 numDays S days H).Nodup := by
  unfold rawActiveSlots
  rw [List.nodup_flatMap]
  constructor
  · intro off hoff
    unfold slotBlock
    split_ifs with hH
    · exact List.nodup_nil
    · cases hg : get_semester_week_and_day_indices (D0 + off) D0 days with
      | mk ow odi =>
        cases ow with
        | none => exact List.nodup_nil
        | some w =>
          cases odi with
          | none => exact List.nodup_nil
          | some di =>
            refine List.Nodup.map ?_ (List.nodup_range S)
            intro a b hab
            injection hab with h1 h2
            injection h2
  · have hnd : (List.range numDays).Nodup := List.nodup_range numDays
    exact hnd.imp (fun hab => slotBlock_disjoint hab)

lemma tripLe_trans : ∀ a b c : Nat × Nat × Nat,
    tripLe a b → tripLe b c → tripLe a c := by
  intro a b c hab hbc
  obtain ⟨a1, a2, a3⟩ := a
  obtain ⟨b1, b2, b3⟩ := b
  obtain ⟨c1, c2, c3⟩ := c
  simp only [tripLe, decide_eq_true_eq] at hab hbc ⊢
  omega

lemma tripLe_total : ∀ a b : Nat × Nat × Nat, tripLe a b || tripLe b a := by
  intro a b
  obtain ⟨a1, a2, a3⟩ := a
  obtain ⟨b1, b2, b3⟩ := b
  rw [Bool.or_eq_true]
  simp only [tripLe, decide_eq_true_eq]
  omega

lemma active_nodup (D0 numDays S : Nat) (days : List String) (H : List Nat) :
    (active_slot_details_list D0 numDays S days H).Nodup := by
  unfold active_slot_details_list
  exact (List.mergeSort_perm (rawActiveSlots D0 numDays S days H)
    tripLe).nodup_iff.mpr (rawActiveSlots_nodup D0 numDays S days H)

lemma active_sorted (D0 numDays S : Nat) (days : List String) (H : List Nat) :
    (active_slot_details_list D0 numDays S days H).Pairwise
      (fun a b => tripLe a b = true) := by
  unfold active_slot_details_list
  exact List.sorted_mergeSort (fun a b c => tripLe_trans a b c)
    (fun a b => tripLe_total a b) (rawActiveSlots D0 numDays S days H)

/-- C8: the active-slot list enumerates exactly the
(weekIdx, dayIdx, shiftIdx) triples whose date lies in the semester, is
not a holiday and whose day name is an allowed day, with
weekIdx = (date - D0) / 7 and dayIdx the position of the day name in the
allowed-days map; the list is sorted lexicographically, global slots are
exactly the dense indices 0 .. N-1 into it, and the forward and inverse
maps are mutual inverses. -/
theorem C8_global_slot_bijection (D0 numDays S : Nat) (days : List String)
    (H : List Nat) :
    (∀ t, t ∈ active_slot_details_list D0 numDays S days H ↔
       ∃ d, D0 ≤ d ∧ d < D0 + numDays ∧ d ∉ H ∧
         ∃ di, dayNameToIdx days (dayName d) = some di ∧
           ∃ sh, sh < S ∧ t = ((d - D0) / 7, di, sh))
    ∧ (active_slot_details_list D0 numDays S days H).Pairwise
        (fun a b => tripLe a b = true)
    ∧ (∀ i, (slotToDetails (active_slot_details_list D0 numDays S days H) i).isSome ↔
         i < (active_slot_details_list D0 numDays S days H).length)
    ∧ (∀ i t, slotToDetails (active_slot_details_list D0 numDays S days H) i = some t →
         detailsToSlot (active_slot_details_list D0 numDays S days H) t = some i)
    ∧ (∀ t i, detailsToSlot (active_slot_details_list D0 numDays S days H) t = some i →
         slotToDetails (active_slot_details_list D0 numDays S days H) i = some t) := by
  refine ⟨?_, active_sorted D0 numDays S days H, ?_, ?_, ?_⟩
  · intro t
    unfold active_slot_details_list
    rw [List.mem_mergeSort]
    exact mem_rawActiveSlots
  · intro i
    unfold slotToDetails
    rw [Option.isSome_iff_exists]
    constructor
    · rintro ⟨t, ht⟩
      exact (List.getElem?_eq_some_iff.mp ht).1
    · intro hi
      exact ⟨_, List.getElem?_eq_some_iff.mpr ⟨hi, rfl⟩⟩
  · intro i t h
    unfold slotToDetails at h
    unfold detailsToSlot
    have := lastIdxFrom_of_nodup (i := 0)
      (active_nodup D0 numDays S days H) h
    simpa using this
  · intro t i h
    unfold detailsToSlot at h
    obtain ⟨h1, h2⟩ := lastIdxFrom_sound h
    unfold slotToDetails
    simpa using h2

/-- C8 witness: with a one-week semester starting on the epoch Monday,
allowed days MONDAY and WEDNESDAY, two shifts and the Wednesday a
holiday, slot (week 0, day 0, shift 1) is active. -/
theorem C8_global_slot_bijection_witness :
    (0, 0, 1) ∈ active_slot_details_list 0 7 2 ["MONDAY", "WEDNESDAY"] [2] :=
  ((C8_global_slot_bijection 0 7 2 ["MONDAY", "WEDNESDAY"] [2]).1 (0, 0, 1)).mpr
    ⟨0, by decide, by decide, by decide, 0, by decide, 1, by decide, by decide⟩


/-! ## Occupancy compiler: existing-schedule records -/

/-- The `ExistingScheduleRecord` pydantic DTO (schedule.py lines 58-64),
with its declared camelCase field names; the date-range strings are
modelled by day numbers. -/
structure ExistingScheduleRecord where
  roomId : Nat
  lecturerId : Nat
  timeSlotId : Nat
  dayOfWeek : String
  startDate : Nat
  endDate : Nat
  deriving DecidableEq

/-- A Python attribute value of a record field. -/
inductive PyVal where
  | nat (n : Nat)
  | str (s : String)
  deriving DecidableEq

/-- Python exceptions relevant to the service, as the outer handlers of
`calculate_with_cp` distinguish them. -/
inductive PyExc where
  | attributeError (name : String)
  | valueError (msg : String)
  deriving DecidableEq

/-- Python attribute lookup on an `ExistingScheduleRecord` instance: only
the six field names declared on the pydantic model resolve; any other
name yields no attribute. -/
def recordGetAttr (r : ExistingScheduleRecord) : String → Option PyVal
  | "roomId" => some (.nat r.roomId)
  | "lecturerId" => some (.nat r.lecturerId)
  | "timeSlotId" => some (.nat r.timeSlotId)
  | "dayOfWeek" => some (.str r.dayOfWeek)
  | "startDate" => some (.nat r.startDate)
  | "endDate" => some (.nat r.endDate)
  | _ => none

/-- Reading an attribute raises `AttributeError` when the name does not
resolve. -/
def recordAttr (r : ExistingScheduleRecord) (n : String) : Except PyExc PyVal :=
  match recordGetAttr r n with
  | some v => .ok v
  | none => .error (.attributeError n)

/-- The date iteration of a single existing-schedule record
(schedule.py lines 471-509), on day numbers `d` up to `e` inclusive:
dates matching the occupied day index that are inside the semester and
not holidays resolve through the details-to-slot map, and known room and
lecturer ids contribute occupied pairs.  Structural fuel models the
`while` loop; the caller supplies enough. -/
def expandRecordDatesFuel (D0 : Nat) (days : List String) (H : List Nat)
    (detToSlot : Nat × Nat × Nat → Option Nat)
    (roomIdToIdx lectIdToIdx : Nat → Option Nat)
    (roomId lectId occDayIdx tsIdx : Nat) :
    Nat → Nat → Nat → List (Nat × Nat) × List (Nat × Nat)
  | 0, _, _ => ([], [])
  | fuel + 1, d, e =>
    if d ≤ e then
      let rest := expandRecordDatesFuel D0 days H detToSlot roomIdToIdx
        lectIdToIdx roomId lectId occDayIdx tsIdx fuel (d + 1) e
      let here : List (Nat × Nat) × List (Nat × Nat) :=
        match get_semester_week_and_day_indices d D0 days with
        | (some w, some di) =>
          if di = occDayIdx then
            if d ∈ H then ([], [])
            else
              match detToSlot (w, di, tsIdx) with
              | some gs =>
                ((match roomIdToIdx roomId with
                  | some ri => [(ri, gs)]
                  | none => []),
                 (match lectIdToIdx lectId with
                  | some li => [(li, gs)]
                  | none => []))
              | none => ([], [])
          else ([], [])
        | _ => ([], [])
      (here.1 ++ rest.1, here.2 ++ rest.2)
    else ([], [])

/-- One existing-schedule record processed as the `try` body does
(schedule.py lines 455-509): the code reads the attributes
`start_date`, `end_date`, `day_of_week`, `time_slot_id`, `room_id` and
`lecturer_id` in snake case, then expands the weekly recurrence.
Returns the occupied (roomIdx, globalSlot) and (lecturerIdx, globalSlot)
pairs the record contributes. -/
def processExistingRecord (D0 : Nat) (days : List String) (H : List Nat)
    (detToSlot : Nat × Nat × Nat → Option Nat)
    (tsIdToIdx roomIdToIdx lectIdToIdx : Nat → Option Nat)
    (dayIdx : String → Option Nat) (r : ExistingScheduleRecord) :
    Except PyExc (List (Nat × Nat) × List (Nat × Nat)) := do
  let startVal ← recordAttr r "start_date"
  let endVal ← recordAttr r "end_date"
  let dayVal ← recordAttr r "day_of_week"
  let tsVal ← recordAttr r "time_slot_id"
  let roomVal ← recordAttr r "room_id"
  let lectVal ← recordAttr r "lecturer_id"
  match startVal, endVal, dayVal, tsVal, roomVal, lectVal with
  | .nat s, .nat e, .str dn, .nat tsId, .nat roomId, .nat lectId =>
    match dayIdx dn with
    | none => .ok ([], [])
    | some occDayIdx =>
      match tsIdToIdx tsId with
      | none => .ok ([], [])
      | some tsIdx =>
        .ok (expandRecordDatesFuel D0 days H detToSlot roomIdToIdx lectIdToIdx
          roomId lectId occDayIdx tsIdx (e + 1 - s) s e)
  | _, _, _, _, _, _ => .error (.valueError "unexpected field types")

/-- The record loop of `calculate_with_cp` (schedule.py lines 449-514):
each record is processed inside `try`; any exception is logged and the
record skipped, accumulating into the occupied-room and
occupied-lecturer pair lists. -/
def compileExistingOccupancy (D0 : Nat) (days : List String) (H : List Nat)
    (detToSlot : Nat × Nat × Nat → Option Nat)
    (tsIdToIdx roomIdToIdx lectIdToIdx : Nat → Option Nat)
    (dayIdx : String → Option Nat)
    (records : List ExistingScheduleRecord) :
    List (Nat × Nat) × List (Nat × Nat) :=
  records.foldl (fun acc r =>
    match processExistingRecord D0 days H detToSlot tsIdToIdx roomIdToIdx
        lectIdToIdx dayIdx r with
    | .ok (rooms, lects) => (acc.1 ++ rooms, acc.2 ++ lects)
    | .error _ => acc) ([], [])

lemma processExistingRecord_always_raises (D0 : Nat) (days : List String)
    (H : List Nat) (detToSlot : Nat × Nat × Nat → Option Nat)
    (tsIdToIdx roomIdToIdx lectIdToIdx : Nat → Option Nat)
    (dayIdx : String → Option Nat) (r : ExistingScheduleRecord) :
    processExistingRecord D0 days H detToSlot tsIdToIdx roomIdToIdx
      lectIdToIdx dayIdx r = .error (.attributeError "start_date") := rfl

/-- C1: contrary to the claim, NO existing-schedule record ever
contributes occupied pairs: the loop body reads the snake-case
attributes `start_date`, `end_date`, … while the pydantic DTO declares
camelCase `startDate`, `endDate`, …, so the very first read raises
`AttributeError`, the record-level handler swallows it, and the compiled
occupied-room and occupied-lecturer sets stay empty; in particular they
are empty for a record whose dates satisfy all of the claim's conditions
(the second conjunct exhibits the pairs the intended body would have
produced for that record). -/
theorem C1_existing_occupancy_all_dropped :
    (∀ (D0 : Nat) (days : List String) (H : List Nat)
      (detToSlot : Nat × Nat × Nat → Option Nat)
      (tsIdToIdx roomIdToIdx lectIdToIdx : Nat → Option Nat)
      (dayIdx : String → Option Nat) (records : List ExistingScheduleRecord),
      compileExistingOccupancy D0 days H detToSlot tsIdToIdx roomIdToIdx
        lectIdToIdx dayIdx records = ([], []))
    ∧ expandRecordDatesFuel 0 ["MONDAY", "TUESDAY"] []
        (fun t => if t = (0, 0, 0) then some 0 else none)
        (fun roomId => if roomId = 11 then some 0 else none)
        (fun lectId => if lectId = 21 then some 0 else none)
        11 21 0 0 8 0 6 = ([(0, 0)], [(0, 0)]) := by
  constructor
  · intro D0 days H detToSlot tsIdToIdx roomIdToIdx lectIdToIdx dayIdx records
    induction records with
    | nil => rfl
    | cons r rs ih =>
      unfold compileExistingOccupancy
      rw [List.foldl_cons, processExistingRecord_always_raises]
      exact ih
  · decide


/-! ## Objective function section -/

/-- Character-list prefix test, the base of the Python substring
operator `in`. -/
def charsStartWith : List Char → List Char → Bool
  | [], _ => true
  | _ :: _, [] => false
  | a :: as, b :: bs => a == b && charsStartWith as bs

/-- Substring search over character lists. -/
def charsContain (needle : List Char) : List Char → Bool
  | [] => charsStartWith needle []
  | b :: bs => charsStartWith needle (b :: bs) || charsContain needle bs

/-- The Python expression `needle in s` on strings. -/
def strContains (s needle : String) : Bool :=
  charsContain needle.toList s.toList

/-- The `objectiveStrategy` field: declared `Optional[str]`, it defaults
to the enum member `EObjectStrategy.BALANCE_LOAD_AND_EARLY_START`
(schedule.py line 87, enums.py); a value supplied by the request is
validated as a plain string, while the unvalidated default keeps the
enum member, whose `.value` is the string shown. -/
inductive ObjectiveStrategyField where
  | enumMember (value : String)
  | plainStr (s : String)
  deriving DecidableEq

/-- The field default `EObjectStrategy.BALANCE_LOAD_AND_EARLY_START`. -/
def defaultObjectiveStrategy : ObjectiveStrategyField :=
  .enumMember "BALANCE_LOAD_AND_EARLY_START"

/-- Reading `input_dto.objectiveStrategy.value` (schedule.py lines 764
and 773): enum members expose `.value`, a plain string has no such
attribute and raises `AttributeError`. -/
def strategyValue : ObjectiveStrategyField → Except PyExc String
  | .enumMember v => .ok v
  | .plainStr _ => .error (.attributeError "value")

/-- Maximum of the lecturer-load values (`AddMaxEquality`). -/
def loadsMax : List Nat → Nat
  | [] => 0
  | a :: as => as.foldl max a

/-- Minimum of the lecturer-load values (`AddMinEquality`). -/
def loadsMin : List Nat → Nat
  | [] => 0
  | a :: as => as.foldl min a

/-- The `objective_terms` list of `calculate_with_cp` (schedule.py lines
735-810) valued at a solution: the load-difference term is appended when
the strategy value contains `BALANCE_LOAD` and lecturer-load variables
exist; the sum of the group start weeks is appended when it contains
`EARLY_START` and start-week variables exist. -/
def objective_terms (strategyVal : String) (loads startWeeks : List Nat) :
    List Nat :=
  (if strContains strategyVal "BALANCE_LOAD" = true ∧ loads ≠ [] then
    [loadsMax loads - loadsMin loads]
  else []) ++
  (if strContains strategyVal "EARLY_START" = true ∧ startWeeks ≠ [] then
    [startWeeks.sum]
  else [])

/-- The minimized total objective (schedule.py lines 812-824): the plain
sum of the collected terms, or no objective at all when the term list is
empty. -/
def totalObjective (strategyVal : String) (loads startWeeks : List Nat) :
    Option Nat :=
  match objective_terms strategyVal loads startWeeks with
  | [] => none
  | ts => some ts.sum

/-- The objective section of `calculate_with_cp` (schedule.py lines
764-824) as executed on the strategy field: every branch first reads
`.value` (all reads see the same field, modelled by one read), then the
minimized objective is assembled. -/
def objectiveSection (strategy : ObjectiveStrategyField)
    (loads startWeeks : List Nat) : Except PyExc (Option Nat) := do
  let v ← strategyValue strategy
  pure (totalObjective v loads startWeeks)

/-- The outer exception handlers of `calculate_with_cp` (schedule.py
lines 959-966): a `ValueError` becomes HTTP 400, any other exception
(such as `AttributeError`) becomes HTTP 500. -/
def handlerStatus : PyExc → Nat
  | .attributeError _ => 500
  | .valueError _ => 400

/-- The objective section under the outer handlers, before the solver is
invoked (the solver call at schedule.py line 835 comes after lines
764-824). -/
def runObjectiveSection (strategy : ObjectiveStrategyField)
    (loads startWeeks : List Nat) : Except Nat (Option Nat) :=
  match objectiveSection strategy loads startWeeks with
  | .ok r => .ok r
  | .error e => .error (handlerStatus e)

/-- C10: a request that supplies `objectiveStrategy` as a plain string
(the declared `Optional[str]` type) makes the objective section raise
`AttributeError` on `.value` and the service fail with HTTP 500 before
solving; the section runs successfully exactly for the default
enum-typed field value. -/
theorem C10_plain_string_strategy_500 :
    (∀ (s : String) (loads startWeeks : List Nat),
      runObjectiveSection (.plainStr s) loads startWeeks = .error 500)
    ∧ (∀ loads startWeeks : List Nat,
      runObjectiveSection defaultObjectiveStrategy loads startWeeks =
        .ok (totalObjective "BALANCE_LOAD_AND_EARLY_START" loads startWeeks)) := by
  constructor
  · intro s loads startWeeks
    rfl
  · intro loads startWeeks
    rfl

/-- The spec's claimed weighted objective for C4 (modelled from the
spec): weight 10 on the load-imbalance term and weight 1 on an
early-start term defined as the sum over all sessions of their assigned
global slot. -/
def claimedWeightedObjective (balance early : Bool) (loads : List Nat)
    (sessionGlobalSlots : List Nat) : Nat :=
  (if balance then 10 * (loadsMax loads - loadsMin loads) else 0) +
  (if early then 1 * sessionGlobalSlots.sum else 0)

/-- C4 counterexample: with the default strategy (both flags active),
lecturer loads [1, 0], one group starting in week 1 and its single
session at global slot 5, the code minimizes 1 * (1 - 0) + 1 = 2 while
the claim's weighted combination is 10 * (1 - 0) + 5 = 15. -/
theorem C4_objective_weights_counterexample :
    totalObjective "BALANCE_LOAD_AND_EARLY_START" [1, 0] [1] = some 2 ∧
    claimedWeightedObjective true true [1, 0] [5] = 15 ∧
    (2 : Nat) ≠ 15 := by
  refine ⟨?_, by decide, by decide⟩
  decide

/-- C4 amended: when the strategy value contains both `BALANCE_LOAD` and
`EARLY_START` and both variable lists are nonempty, the minimized
objective is the UNWEIGHTED sum of the load-imbalance term
max(load) - min(load) and an early-start term equal to the sum of the
group start-week variables (not of the session global slots); each term
is added only when its flag is active. -/
theorem C4_objective_unweighted_sum (v : String) (loads startWeeks : List Nat)
    (hb : strContains v "BALANCE_LOAD" = true)
    (he : strContains v "EARLY_START" = true)
    (hl : loads ≠ []) (hs : startWeeks ≠ []) :
    totalObjective v loads startWeeks =
      some ((loadsMax loads - loadsMin loads) + startWeeks.sum) := by
  unfold totalObjective objective_terms
  rw [if_pos ⟨hb, hl⟩, if_pos ⟨he, hs⟩]
  simp

/-- C4 witness: the amended objective at the default strategy value,
loads [3, 1] and start weeks [2, 0] evaluates to (3 - 1) + 2 = 4. -/
theorem C4_objective_unweighted_sum_witness :
    totalObjective "BALANCE_LOAD_AND_EARLY_START" [3, 1] [2, 0] = some 4 := by
  rw [C4_objective_unweighted_sum "BALANCE_LOAD_AND_EARLY_START" [3, 1] [2, 0]
    (by decide) (by decide) (by decide) (by decide)]
  decide


/-! ## Result decoder -/

/-- Output DTO `WeeklyScheduleDetailDTO` (schedule.py lines 133-136): it
carries ONLY the weekly day name, time-slot id and room id; the source
DTO has no field for concrete dates. -/
structure WeeklyScheduleDetailDTO where
  dayOfWeek : String
  timeSlotId : Nat
  roomId : Nat
  deriving DecidableEq

/-- Output DTO `ClassGroupScheduledDTO` (schedule.py lines 138-146);
the two date strings are modelled by day numbers. -/
structure ClassGroupScheduledDTO where
  groupNumber : Nat
  maxStudents : Nat
  lecturerId : Nat
  groupStartDate : Nat
  groupEndDate : Nat
  totalTeachingWeeksForGroup : Nat
  sessionsPerWeekForGroup : Nat
  weeklyScheduleDetails : List WeeklyScheduleDetailDTO
  deriving DecidableEq

/-- The solver values read for one group when decoding a solution
(schedule.py lines 877-890): the assigned lecturer index, the group
start week, and the per-weekly-session day, shift and room indices. -/
structure GroupSolutionValues where
  assignedLecturerIdx : Nat
  startSemesterWeek : Nat
  dayIdxVals : List Nat
  shiftIdxVals : List Nat
  roomIdxVals : List Nat
  deriving DecidableEq

/-- The per-group decoding of `calculate_with_cp` (schedule.py lines
875-906): `groupStartDate` is the semester start plus `startWeek` whole
weeks, `groupEndDate` extends the same date in the last course week to
the following Sunday (`weekday()` is day number mod 7 with a Monday
epoch), `maxStudents` is set to the request's `groupSizeTarget`, and one
weekly detail is emitted per weekly session from the solved (day, shift,
room) index triples through the index-to-id maps. -/
def decodeGroup (D0 groupSizeTarget : Nat) (lecturerIdxToId : Nat → Nat)
    (dayIdxToName : Nat → String) (timeslotIdxToId roomIdxToId : Nat → Nat)
    (g : SchedulingGroupInternal) (sol : GroupSolutionValues) :
    ClassGroupScheduledDTO :=
  { groupNumber := g.idTuple.2.2
    maxStudents := groupSizeTarget
    lecturerId := lecturerIdxToId sol.assignedLecturerIdx
    groupStartDate := D0 + 7 * sol.startSemesterWeek
    groupEndDate :=
      (D0 + 7 * (sol.startSemesterWeek + g.totalCourseWeeks - 1)) +
        (6 - (D0 + 7 * (sol.startSemesterWeek + g.totalCourseWeeks - 1)) % 7)
    totalTeachingWeeksForGroup := g.totalCourseWeeks
    sessionsPerWeekForGroup := g.sessionsPerWeek
    weeklyScheduleDetails := (List.range g.sessionsPerWeek).map (fun i =>
      { dayOfWeek := dayIdxToName (sol.dayIdxVals.getD i 0)
        timeSlotId := timeslotIdxToId (sol.shiftIdxVals.getD i 0)
        roomId := roomIdxToId (sol.roomIdxVals.getD i 0) }) }

/-- The concrete date instantiating week `week` and allowed-day index
`di`: the unique day of that calendar week whose day name maps to `di`. -/
def weekDayDate (D0 : Nat) (days : List String) (week di : Nat) : Option Nat :=
  ((List.range 7).map (fun o => D0 + 7 * week + o)).find?
    (fun d => dayNameToIdx days (dayName d) == some di)

/-- The concrete session dates a decoded group solution induces: session
(courseWeek w, weekly index i) falls in calendar week
startWeek + w - 1 on the day with index dayIdxVals[i - 1]. -/
def groupSessionDates (D0 : Nat) (days : List String)
    (sol : GroupSolutionValues) (sessions : List (Nat × Nat × Nat)) :
    List Nat :=
  sessions.filterMap (fun s =>
    weekDayDate D0 days (sol.startSemesterWeek + s.1 - 1)
      (sol.dayIdxVals.getD (s.2.1 - 1) 0))

/-- The capacity of the room at a given dense index,
`room_capacities_by_idx[idx]` (schedule.py line 288). -/
def roomCapacityAt (capacities : List Nat) (idx : Nat) : Nat :=
  capacities.getD idx 0

/-- A concrete scheduling group used to exercise the decoder: one group
of course 1 in semester 1, 30 students, one session per week for one
week. -/
def demoGroup : SchedulingGroupInternal :=
  { idTuple := (1, 1, 1), actualStudentsInGroup := 30,
    sessionsPerWeek := 1, totalCourseWeeks := 1 }

/-- A concrete solution for `demoGroup`: lecturer index 0, start week 0,
meeting on allowed-day index 2 (WEDNESDAY), shift 0, room 0. -/
def demoSolution : GroupSolutionValues :=
  { assignedLecturerIdx := 0, startSemesterWeek := 0,
    dayIdxVals := [2], shiftIdxVals := [0], roomIdxVals := [0] }

/-- The default working week. -/
def workdays : List String :=
  ["MONDAY", "TUESDAY", "WEDNESDAY", "THURSDAY", "FRIDAY"]

/-- C2 counterexample: decoding `demoGroup` with a single room of
capacity 40 at index 0 and `groupSizeTarget` 60 yields
`maxStudents` = 60, but the chosen room's capacity is 40: `maxStudents`
is NOT the capacity of the chosen room. -/
theorem C2_maxStudents_counterexample :
    (decodeGroup 0 60 (fun i => 100 + i) dayNameOfWeekday (fun i => 1 + i)
        (fun i => 11 + i) demoGroup demoSolution).maxStudents = 60 ∧
    roomCapacityAt [40] (demoSolution.roomIdxVals.getD 0 0) = 40 ∧
    (60 : Nat) ≠ 40 := by
  refine ⟨rfl, rfl, by decide⟩

/-- C2 amended: for every decoded group, `maxStudents` equals the
request's `groupSizeTarget`, regardless of the chosen room and its
capacity. -/
theorem C2_maxStudents_is_group_size_target (D0 groupSizeTarget : Nat)
    (lecturerIdxToId : Nat → Nat) (dayIdxToName : Nat → String)
    (timeslotIdxToId roomIdxToId : Nat → Nat)
    (g : SchedulingGroupInternal) (sol : GroupSolutionValues) :
    (decodeGroup D0 groupSizeTarget lecturerIdxToId dayIdxToName
      timeslotIdxToId roomIdxToId g sol).maxStudents = groupSizeTarget := rfl

/-- C3 counterexample: `demoGroup` under `demoSolution` meets only on
WEDNESDAY of week 0, so its unique concrete session date is day 2, yet
the decoder returns `groupStartDate` = day 0 (the Monday) and
`groupEndDate` = day 6 (the Sunday): neither equals the earliest or the
latest session date. -/
theorem C3_group_dates_counterexample :
    groupSessionDates 0 workdays demoSolution (sessionsForGroup 1 1 1) = [2] ∧
    (decodeGroup 0 60 (fun i => 100 + i) dayNameOfWeekday (fun i => 1 + i)
        (fun i => 11 + i) demoGroup demoSolution).groupStartDate = 0 ∧
    (decodeGroup 0 60 (fun i => 100 + i) dayNameOfWeekday (fun i => 1 + i)
        (fun i => 11 + i) demoGroup demoSolution).groupEndDate = 6 ∧
    (0 : Nat) ≠ 2 ∧ (6 : Nat) ≠ 2 := by
  refine ⟨by decide, rfl, rfl, by decide, by decide⟩

/-- C3 amended: for every decoded group, `groupStartDate` is the first
day of the group's start calendar week (semester start plus `startWeek`
weeks, not the earliest session date), `groupEndDate` is the Sunday
following the same weekday in the last course week (not the latest
session date), and each weekly detail carries only the (day name,
time-slot id, room id) triple; the output DTO has no list of concrete
dates. -/
theorem C3_group_dates_are_week_bounds (D0 groupSizeTarget : Nat)
    (lecturerIdxToId : Nat → Nat) (dayIdxToName : Nat → String)
    (timeslotIdxToId roomIdxToId : Nat → Nat)
    (g : SchedulingGroupInternal) (sol : GroupSolutionValues) :
    (decodeGroup D0 groupSizeTarget lecturerIdxToId dayIdxToName
        timeslotIdxToId roomIdxToId g sol).groupStartDate =
      D0 + 7 * sol.startSemesterWeek ∧
    (decodeGroup D0 groupSizeTarget lecturerIdxToId dayIdxToName
        timeslotIdxToId roomIdxToId g sol).groupEndDate =
      (D0 + 7 * (sol.startSemesterWeek + g.totalCourseWeeks - 1)) +
        (6 - (D0 + 7 * (sol.startSemesterWeek + g.totalCourseWeeks - 1)) % 7) ∧
    (decodeGroup D0 groupSizeTarget lecturerIdxToId dayIdxToName
        timeslotIdxToId roomIdxToId g sol).weeklyScheduleDetails =
      (List.range g.sessionsPerWeek).map (fun i =>
        { dayOfWeek := dayIdxToName (sol.dayIdxVals.getD i 0)
          timeSlotId := timeslotIdxToId (sol.shiftIdxVals.getD i 0)
          roomId := roomIdxToId (sol.roomIdxVals.getD i 0) }) :=
  ⟨rfl, rfl, rfl⟩

/-! ## Final result assembly -/

/-- Output DTO `LecturerLoadDTO` (schedule.py lines 126-128). -/
structure LecturerLoadDTO where
  lecturerId : Nat
  sessionsAssigned : Nat
  deriving DecidableEq

/-- Output DTO `CourseScheduledDTO` (schedule.py lines 148-152). -/
structure CourseScheduledDTO where
  courseId : Nat
  totalRegisteredStudents : Nat
  totalSessionsForCourse : Nat
  scheduledClassGroups : List ClassGroupScheduledDTO
  deriving DecidableEq

/-- Output DTO `FinalScheduleResultDTO` (schedule.py lines 155-165);
`solverDurationSeconds` (wall-clock float) is omitted from the model. -/
structure FinalScheduleResultDTO where
  semesterId : Nat
  semesterStartDate : Nat
  semesterEndDate : Nat
  scheduledCourses : List CourseScheduledDTO
  lecturerLoad : List LecturerLoadDTO
  loadDifference : Option Nat
  totalOriginalSessionsToSchedule : Nat
  solverStatus : String
  solverMessage : Option String
  deriving DecidableEq

/-- The CP-SAT statuses the service distinguishes (schedule.py lines
851, 931-934); `StatusName` yields the upper-case names. -/
inductive CpSolverStatus where
  | OPTIMAL
  | FEASIBLE
  | INFEASIBLE
  | MODEL_INVALID
  | UNKNOWN
  deriving DecidableEq

/-- `solver.StatusName(status)`. -/
def statusName : CpSolverStatus → String
  | .OPTIMAL => "OPTIMAL"
  | .FEASIBLE => "FEASIBLE"
  | .INFEASIBLE => "INFEASIBLE"
  | .MODEL_INVALID => "MODEL_INVALID"
  | .UNKNOWN => "UNKNOWN"

/-- The solution-processing tail of `calculate_with_cp` (schedule.py
lines 841-957): courses, loads and the load difference are decoded only
for OPTIMAL or FEASIBLE; for every other status the accumulators stay
empty; the final message depends on the status and on whether any course
was scheduled; the assembled DTO is returned (no exception is raised on
this path). -/
def processSolutionResult (semesterId D0 D1 totalSessions : Nat)
    (status : CpSolverStatus)
    (decodedCourses : List CourseScheduledDTO)
    (decodedLoads : List LecturerLoadDTO) (decodedLoadDiff : Option Nat) :
    Except (Nat × String) FinalScheduleResultDTO :=
  let isSolution := status = .OPTIMAL ∨ status = .FEASIBLE
  let outputCourses := if isSolution then decodedCourses else []
  let outputLoads := if isSolution then decodedLoads else []
  let outputDiff := if isSolution then decodedLoadDiff else none
  let finalMessage :=
    if isSolution then
      if outputCourses ≠ [] then "Schedule generated successfully."
      else
        "Feasible/Optimal solution found, but no courses were scheduled (check input or constraints)."
    else "Solver finished with status: " ++ statusName status ++ "."
  .ok { semesterId := semesterId
        semesterStartDate := D0
        semesterEndDate := D1
        scheduledCourses := outputCourses
        lecturerLoad := outputLoads
        loadDifference := outputDiff
        totalOriginalSessionsToSchedule := totalSessions
        solverStatus := statusName status
        solverMessage := some finalMessage }

/-- C9: whenever the solver reports INFEASIBLE, `calculate_with_cp`
returns (does not raise) a structured `FinalScheduleResultDTO` whose
`scheduledCourses` list is empty, whose `solverStatus` is the status
name INFEASIBLE, and whose message is the diagnostic
"Solver finished with status: INFEASIBLE.". -/
theorem C9_infeasible_structured_response (semesterId D0 D1 totalSessions : Nat)
    (decodedCourses : List CourseScheduledDTO)
    (decodedLoads : List LecturerLoadDTO) (decodedLoadDiff : Option Nat) :
    ∃ r, processSolutionResult semesterId D0 D1 totalSessions .INFEASIBLE
        decodedCourses decodedLoads decodedLoadDiff = .ok r ∧
      r.scheduledCourses = [] ∧
      r.solverStatus = "INFEASIBLE" ∧
      r.solverMessage = some "Solver finished with status: INFEASIBLE." := by
  refine ⟨_, rfl, ?_, rfl, ?_⟩
  · simp [processSolutionResult]
  · simp [processSolutionResult, statusName]


/-! ## The no-sessions early return -/

/-- The fields of `FinalScheduleResultDTO` that have no default value
and are therefore required at construction (schedule.py lines 155-165;
`loadDifference` and `solverMessage` default to `None`). -/
def finalResultRequiredFields : List String :=
  ["semesterId", "semesterStartDate", "semesterEndDate", "scheduledCourses",
   "lecturerLoad", "totalOriginalSessionsToSchedule", "solverDurationSeconds",
   "solverStatus"]

/-- The keyword arguments the no-sessions branch passes to the
`FinalScheduleResultDTO` constructor (schedule.py lines 387-393). -/
def noSessionsBranchKwargs : List String :=
  ["generatedWeeklySchedules", "lecturerLoad", "totalCourseSessionsToSchedule",
   "totalSemesterWeekSlotsAvailable", "totalActiveSemesterWeeks", "duration",
   "status", "message"]

/-- The `status` value the no-sessions branch passes. -/
def noSessionsStatusArg : String := "NO_SESSIONS"

/-- Pydantic model construction: extra keyword arguments are ignored,
but a required field absent from the kwargs raises a `ValidationError`
(a `ValueError`) naming the first missing field. -/
def pydanticMissingRequired (required provided : List String) : Option String :=
  required.find? (fun f => !(provided.contains f))

/-- The `return FinalScheduleResultDTO(generatedWeeklySchedules=[], ...)`
statement of the no-sessions branch under the outer handlers of
`calculate_with_cp`: a `ValidationError` from the constructor is caught
by `except ValueError` and re-raised as `HTTPException(400)`.  `ok`
would mean a DTO was successfully constructed and returned. -/
def noSessionsReturn : Except (Nat × String) Unit :=
  match pydanticMissingRequired finalResultRequiredFields noSessionsBranchKwargs with
  | some f => .error (400, "Field required: " ++ f)
  | none => .ok ()

/-- A course with sessions but zero registered students. -/
def zeroStudentsCourse : CourseSchedulingInfoDTO :=
  { courseId := 1, credits := 3, totalSemesterSessions := 15,
    registeredStudents := 0, potentialLecturerIds := [7] }

/-- C5: contrary to the claim, a request whose preprocessing yields no
sessions does NOT get a well-formed NO_SESSIONS_TO_SCHEDULE response:
the early return constructs `FinalScheduleResultDTO` with keyword
arguments of an older DTO shape, every current required field
(`semesterId` first) is missing, pydantic raises `ValidationError`, and
the service fails with HTTP 400; even the status string it tries to send
is "NO_SESSIONS", not "NO_SESSIONS_TO_SCHEDULE".  The first conjunct
shows a concrete request (one 15-session course with zero students, a
16-week semester, limit 3, group size 60) that reaches this branch. -/
theorem C5_no_sessions_branch_raises :
    preprocessAllCourses 1 16 3 60 [zeroStudentsCourse] = .ok ([], []) ∧
    noSessionsReturn = .error (400, "Field required: semesterId") ∧
    noSessionsStatusArg ≠ "NO_SESSIONS_TO_SCHEDULE" := by
  refine ⟨?_, rfl, by decide⟩
  have h1 : processCourse 1 16 3 60 zeroStudentsCourse = .ok ([], []) := by
    unfold processCourse
    rw [show zeroStudentsCourse.totalSemesterSessions = 15 from rfl,
      spw_eval_15_16_3]
    exact if_pos (Or.inl rfl)
  unfold preprocessAllCourses
  rw [h1]
  rfl

end ScheduleSvc
